import Mathlib

/-!
CSV to document-store loader: verification of `main.go`.

A shallow embedding of the producer `readCSV` and of the two phases of the
consumer loop of `main`, followed by theorems about them.

Conventions of the embedding.

* Channel traffic is made explicit. `readCSV` is a function from the results
  its file and CSV reader deliver to the list of channel operations it
  performs, in program order. The consumer is a function of the events its
  `select` statements pick, in the order they are picked.
* The storage driver is an external collaborator: `Client` is the outcome of
  `collection.InsertOne`, as a function of the documents passed to it by the
  earlier calls and of the document passed now.
* A `bson.M` holding text values is an association list without repeated
  keys; `docSet` is the map assignment `doc[k] = v`, `docGet` the lookup.
* The counters are Go `int`s that are only ever incremented by one per
  received row; they are natural numbers here.
* A Go run-time panic (index out of range) is the result `none`.
-/

namespace CsvLoader

/-! ## Constants -/

def logInfoPrefix : String := "INFO: "

def logErrorPrefix : String := "ERROR: "

/-! ## Documents (`bson.M`) -/

/-- A document: the entries of a `bson.M` whose values are strings. -/
abbrev Doc := List (String × String)

/-- Lookup `doc[k]`; `none` when the key is absent. -/
def docGet : Doc → String → Option String
  | [], _ => none
  | (k', v') :: rest, k => if k' = k then some v' else docGet rest k

/-- Map assignment `doc[k] = v`: overwrite the entry of `k` when there is one,
add an entry otherwise. -/
def docSet : Doc → String → String → Doc
  | [], k, v => [(k, v)]
  | (k', v') :: rest, k, v =>
    if k' = k then (k, v) :: rest else (k', v') :: docSet rest k v

/-- The keys of a document. -/
def docKeys (doc : Doc) : List String := doc.map Prod.fst

/-- The loop `for j, header := range headers { doc[header] = record[j] }` of
`main`, from position `j` on, `doc` being the map built so far. Indexing
`record[j]` out of range panics. -/
def fillDoc (record : List String) : List String → Nat → Doc → Option Doc
  | [], _, doc => some doc
  | header :: rest, j, doc =>
    match record.get? j with
    | none => none
    | some v => fillDoc record rest (j + 1) (docSet doc header v)

/-- The document construction of `main`: `doc := bson.M{}` followed by the
loop over the headers. -/
def buildDoc (headers record : List String) : Option Doc :=
  fillDoc record headers 0 []

/-! ## The sink -/

/-- The storage driver: the outcome of `collection.InsertOne(ctx, data)`,
given the documents of the earlier calls (oldest first) and `data`; either
the driver's error or the identifier of the inserted document. -/
abbrev Client := List Doc → Doc → Except String String

/-- The function `insertData`: one `InsertOne` call, whose error is wrapped. -/
def insertData (client : Client) (dbName collectionName : String)
    (earlier : List Doc) (data : Doc) : Except String String :=
  match client earlier data with
  | .error err =>
    .error ("could not insert data into " ++ dbName ++ "." ++ collectionName ++ ": " ++ err)
  | .ok result => .ok result

/-! ## The consumer: Phase 2 of `main` -/

/-- The local variables of `main` that Phase 2 updates, and the documents
passed to `insertData` so far, oldest first. -/
structure State where
  running : Bool
  recordsProcessed : Nat
  successfulInserts : Nat
  failedInserts : Nat
  submitted : List Doc
  deriving DecidableEq, Repr

/-- The state at the start of Phase 2: `running := true`, the counters at
their zero value, no call made. -/
def initState : State :=
  { running := true, recordsProcessed := 0, successfulInserts := 0,
    failedInserts := 0, submitted := [] }

/-- What one `select` of the Phase-2 loop can pick. -/
inductive Event where
  /-- The receive `record, ok := <-dataChan` with `ok` true. -/
  | row (record : List String)
  /-- The receive from `dataChan` with `ok` false: the channel is closed. -/
  | dataClosed
  /-- The receive `err := <-errChan`. -/
  | parseError (err : String)
  /-- The case `<-time.After(30 * time.Second)`. -/
  | timeout
  deriving DecidableEq, Repr

/-- One iteration of the body of `for running { select { ... } }`. -/
def phase2Step (client : Client) (dbName collectionName : String)
    (headers : List String) (s : State) : Event → Option State
  | .dataClosed => some { s with running := false }
  | .row record =>
    let s := { s with recordsProcessed := s.recordsProcessed + 1 }
    if record.length ≠ headers.length then
      some { s with failedInserts := s.failedInserts + 1 }
    else
      match buildDoc headers record with
      | none => none
      | some doc =>
        let s' := { s with submitted := s.submitted ++ [doc] }
        match insertData client dbName collectionName s.submitted doc with
        | .error _ => some { s' with failedInserts := s'.failedInserts + 1 }
        | .ok _ => some { s' with successfulInserts := s'.successfulInserts + 1 }
  | .parseError _ => some s
  | .timeout =>
    if s.recordsProcessed = 0 ∧ s.successfulInserts = 0 ∧ s.failedInserts = 0 then
      some { s with running := false }
    else
      some s

/-- The loop `for running { ... }` run on the events its selects pick, in
order. It stops consuming events once `running` is false; when the events
run out first, the result is the state in which the loop waits. -/
def phase2 (client : Client) (dbName collectionName : String)
    (headers : List String) : State → List Event → Option State
  | s, [] => some s
  | s, e :: es =>
    if s.running then
      match phase2Step client dbName collectionName headers s e with
      | none => none
      | some s' => phase2 client dbName collectionName headers s' es
    else
      some s

/-! ## The consumer: Phase 1 of `main` -/

/-- What the Phase-1 `select` of `main` can pick. -/
inductive HeaderEvent where
  /-- The receive `h, ok := <-headerChan` with `ok` true. -/
  | header (h : List String)
  /-- The receive from `headerChan` with `ok` false: the channel is closed. -/
  | headerClosed
  /-- The receive `err := <-errChan`. -/
  | parseError (err : String)
  /-- The case `<-time.After(10 * time.Second)`. -/
  | timeout
  deriving DecidableEq, Repr

/-- Phase 1 of `main`: the value assigned to `headers`, or the message of the
`log.Fatalf` that ends the process. -/
def phase1 : HeaderEvent → Except String (List String)
  | .header h => .ok h
  | .headerClosed =>
    .error (logErrorPrefix ++ "Failed to receive header: header channel closed unexpectedly.")
  | .parseError err =>
    .error (logErrorPrefix ++ "Critical error during CSV reading setup: " ++ err)
  | .timeout => .error (logErrorPrefix ++ "Timeout waiting for CSV header.")

/-- How a run of `main` stands after the events given to it. -/
inductive Outcome where
  /-- The process exited in `log.Fatalf` with this message; the counters
  declared before Phase 1 and the documents passed to `insertData` are as
  they were at that point. -/
  | fatal (msg : String) (recordsProcessed successfulInserts failedInserts : Nat)
      (submitted : List Doc)
  /-- A run-time panic. -/
  | panicked
  /-- Phase 1 set `headers`, and Phase 2 reached the state `s`: past the loop
  when `s.running` is false, waiting in its `select` otherwise. -/
  | drained (headers : List String) (s : State)
  deriving DecidableEq, Repr

/-- The pipeline part of `main`, from the declaration of `headers` and of the
counters to the end of the Phase-2 loop, with the client already connected:
`first` is the event the Phase-1 `select` picks, `events` the ones the
Phase-2 selects pick. -/
def main (client : Client) (dbName collectionName : String)
    (first : HeaderEvent) (events : List Event) : Outcome :=
  match phase1 first with
  | .error msg => .fatal msg 0 0 0 []
  | .ok headers =>
    match phase2 client dbName collectionName headers initState events with
    | none => .panicked
    | some s => .drained headers s

/-! ## The producer: `readCSV` -/

/-- What `reader.Read()` returns when the input is not at its end. -/
inductive ReadResult where
  /-- A parsed record. -/
  | record (fields : List String)
  /-- An error other than `io.EOF`, with its message. -/
  | failure (err : String)
  deriving DecidableEq, Repr

/-- What the file at `filePath` gives to `readCSV`. -/
inductive Input where
  /-- The call `os.Open(filePath)` fails with this error. -/
  | openFails (err : String)
  /-- The file opens, and the successive calls of `reader.Read()` return
  these results and then `io.EOF`. -/
  | opened (reads : List ReadResult)
  deriving DecidableEq, Repr

/-- The operations of `readCSV` on its channels, its file and its wait
group. -/
inductive Action where
  /-- The send `headerChan <- header`. -/
  | sendHeader (header : List String)
  /-- The send `dataChan <- record`. -/
  | sendData (record : List String)
  /-- The send `errChan <- err`, with the message of `err`. -/
  | sendErr (err : String)
  /-- The deferred `file.Close()`. -/
  | closeFile
  /-- The deferred `close(dataChan)`. -/
  | closeData
  /-- The deferred `close(headerChan)`. -/
  | closeHeader
  /-- The deferred `wg.Done()`. -/
  | wgDone
  deriving DecidableEq, Repr

/-- The error sent when `os.Open` fails. -/
def openErrorMsg (filePath err : String) : String :=
  logErrorPrefix ++ "error opening file " ++ filePath ++ ": " ++ err

/-- The error sent when the header read returns `io.EOF`. -/
def emptyFileMsg (filePath : String) : String :=
  logErrorPrefix ++ "CSV file " ++ filePath ++ " is empty or contains only a header"

/-- The error sent when the header read fails otherwise. -/
def headerErrorMsg (filePath err : String) : String :=
  logErrorPrefix ++ "error reading header from CSV " ++ filePath ++ ": " ++ err

/-- The error sent when a record read fails. -/
def recordErrorMsg (lineNumber : Nat) (filePath err : String) : String :=
  logErrorPrefix ++ "error reading record at line " ++ toString lineNumber ++ " from CSV "
    ++ filePath ++ ": " ++ err ++ ". Skipping row"

/-- The loop `for { lineNumber++; record, err := reader.Read(); ... }` of
`readCSV`, entered with this value of `lineNumber`, on the results the reader
has left before `io.EOF`. -/
def readRecords (filePath : String) : Nat → List ReadResult → List Action
  | _, [] => []
  | lineNumber, r :: rest =>
    let lineNumber := lineNumber + 1
    match r with
    | .failure err =>
      .sendErr (recordErrorMsg lineNumber filePath err) :: readRecords filePath lineNumber rest
    | .record fields => .sendData fields :: readRecords filePath lineNumber rest

/-- The function `readCSV`: its operations in the order it performs them.
The calls deferred at its start run last, in reverse order of their `defer`
statements. -/
def readCSV (filePath : String) : Input → List Action
  | .openFails err =>
    [.sendErr (openErrorMsg filePath err), .closeData, .closeHeader, .wgDone]
  | .opened [] =>
    [.sendErr (emptyFileMsg filePath), .closeFile, .closeData, .closeHeader, .wgDone]
  | .opened (.failure err :: _) =>
    [.sendErr (headerErrorMsg filePath err), .closeFile, .closeData, .closeHeader, .wgDone]
  | .opened (.record header :: rest) =>
    .sendHeader header :: readRecords filePath 1 rest
      ++ [.closeFile, .closeData, .closeHeader, .wgDone]

/-! ## Projections of a trace of `readCSV` -/

/-- The headers sent on `headerChan`, in order. -/
def headersSent : List Action → List (List String)
  | [] => []
  | .sendHeader h :: rest => h :: headersSent rest
  | _ :: rest => headersSent rest

/-- The records sent on `dataChan`, in order. -/
def rowsSent : List Action → List (List String)
  | [] => []
  | .sendData r :: rest => r :: rowsSent rest
  | _ :: rest => rowsSent rest

/-- The errors sent on `errChan`, in order. -/
def errorsSent : List Action → List String
  | [] => []
  | .sendErr e :: rest => e :: errorsSent rest
  | _ :: rest => errorsSent rest

/-! ## Projection of the events of Phase 2 -/

/-- The records of the row events among `events`, in the order received. -/
def rowsReceived : List Event → List (List String)
  | [] => []
  | .row record :: rest => record :: rowsReceived rest
  | _ :: rest => rowsReceived rest

/-! ## Lemmas on documents -/

theorem docGet_docSet_same (doc : Doc) (k v : String) : docGet (docSet doc k v) k = some v := by
  induction doc with
  | nil => simp [docSet, docGet]
  | cons e rest ih =>
    obtain ⟨k', v'⟩ := e
    by_cases h : k' = k
    · simp [docSet, docGet, h]
    · simp [docSet, docGet, h, ih]

theorem docGet_docSet_other (doc : Doc) (k v k' : String) (hne : k' ≠ k) :
    docGet (docSet doc k v) k' = docGet doc k' := by
  induction doc with
  | nil => simp [docSet, docGet, Ne.symm hne]
  | cons e rest ih =>
    obtain ⟨k₀, v₀⟩ := e
    by_cases h : k₀ = k
    · subst h
      simp [docSet, docGet, Ne.symm hne]
    · by_cases h' : k₀ = k'
      · subst h'
        simp [docSet, docGet, h]
      · simp [docSet, docGet, h, h', ih]

theorem fillDoc_spec (record : List String) :
    ∀ (hs : List String) (j : Nat) (doc : Doc), j + hs.length ≤ record.length →
      ∃ d, fillDoc record hs j doc = some d ∧
        (∀ k, k ∉ hs → docGet d k = docGet doc k) ∧
        (∀ i (hi : i < hs.length), hs.get ⟨i, hi⟩ ∉ hs.drop (i + 1) →
          docGet d (hs.get ⟨i, hi⟩) = record.get? (j + i)) := by
  intro hs
  induction hs with
  | nil =>
    intro j doc _
    exact ⟨doc, rfl, fun _ _ => rfl, fun i hi => absurd hi (Nat.not_lt_zero i)⟩
  | cons h t ih =>
    intro j doc hle
    have hj : j < record.length := by simp at hle; omega
    have hget : record.get? j = some (record.get ⟨j, hj⟩) := List.get?_eq_get hj
    obtain ⟨d, hd, hout, hin⟩ := ih (j + 1) (docSet doc h (record.get ⟨j, hj⟩))
      (by simp at hle ⊢; omega)
    refine ⟨d, ?_, ?_, ?_⟩
    · simp only [fillDoc, hget, hd]
    · intro k hk
      have hk' : k ≠ h ∧ k ∉ t := by simpa using hk
      rw [hout k hk'.2, docGet_docSet_other _ _ _ _ hk'.1]
    · intro i hi hlast
      cases i with
      | zero =>
        have hnot : h ∉ t := by simpa using hlast
        show docGet d h = record.get? j
        rw [hout h hnot, docGet_docSet_same, hget]
      | succ i =>
        have hi' : i < t.length := by simpa using hi
        have := hin i hi' (by simpa using hlast)
        simpa [Nat.add_assoc, Nat.add_comm 1 i] using this

/-- With a record as long as the header, the construction of the document
does not panic. -/
theorem buildDoc_isSome (headers record : List String)
    (hlen : record.length = headers.length) : ∃ doc, buildDoc headers record = some doc := by
  obtain ⟨d, hd, _⟩ := fillDoc_spec record headers 0 [] (by omega)
  exact ⟨d, hd⟩

/-- The keys after `doc[k] = v` are `k` and the keys before. -/
theorem mem_docKeys_docSet (doc : Doc) (k v k' : String) :
    k' ∈ docKeys (docSet doc k v) ↔ k' = k ∨ k' ∈ docKeys doc := by
  induction doc with
  | nil => simp [docSet, docKeys]
  | cons e rest ih =>
    obtain ⟨k₀, v₀⟩ := e
    have ih' : k' ∈ List.map Prod.fst (docSet rest k v) ↔ k' = k ∨ k' ∈ List.map Prod.fst rest := ih
    by_cases h : k₀ = k
    · subst h
      simp [docSet, docKeys]
    · simp only [docSet, docKeys, h, if_false, List.map_cons, List.mem_cons, ih']
      tauto

/-- The assignment `doc[k] = v` keeps the keys free of repetition. -/
theorem nodup_docKeys_docSet (doc : Doc) (k v : String) (hnd : (docKeys doc).Nodup) :
    (docKeys (docSet doc k v)).Nodup := by
  induction doc with
  | nil => simp [docSet, docKeys]
  | cons e rest ih =>
    obtain ⟨k₀, v₀⟩ := e
    have hnd' : k₀ ∉ docKeys rest ∧ (docKeys rest).Nodup := by
      simpa [docKeys] using hnd
    by_cases h : k₀ = k
    · subst h
      simpa [docSet, docKeys] using hnd
    · have hmem := mem_docKeys_docSet rest k v k₀
      have hnot : k₀ ∉ docKeys (docSet rest k v) := by
        rw [hmem]; tauto
      have := ih hnd'.2
      simp only [docSet, h, if_false]
      exact List.nodup_cons.mpr ⟨hnot, this⟩

/-- The document loop keeps the keys free of repetition and adds exactly the
header fields it runs over. -/
theorem fillDoc_keys (record : List String) :
    ∀ (hs : List String) (j : Nat) (doc d : Doc), fillDoc record hs j doc = some d →
      (docKeys doc).Nodup →
      (docKeys d).Nodup ∧ ∀ k, k ∈ docKeys d ↔ k ∈ docKeys doc ∨ k ∈ hs := by
  intro hs
  induction hs with
  | nil =>
    intro j doc d hd hnd
    have : doc = d := by simpa [fillDoc] using hd
    subst this
    exact ⟨hnd, fun k => by simp⟩
  | cons h t ih =>
    intro j doc d hd hnd
    cases hget : record.get? j with
    | none =>
      rw [fillDoc, hget] at hd
      cases hd
    | some v =>
      simp only [fillDoc, hget] at hd
      obtain ⟨hnd', hmem⟩ := ih (j + 1) (docSet doc h v) d hd (nodup_docKeys_docSet doc h v hnd)
      refine ⟨hnd', fun k => ?_⟩
      rw [hmem k, mem_docKeys_docSet, List.mem_cons]
      tauto

/-- A member of a list has a last position in it. -/
theorem exists_last_position (k : String) :
    ∀ hs : List String, k ∈ hs →
      ∃ j, ∃ hj : j < hs.length, hs.get ⟨j, hj⟩ = k ∧ hs.get ⟨j, hj⟩ ∉ hs.drop (j + 1) := by
  intro hs
  induction hs with
  | nil => intro h; simp at h
  | cons h t ih =>
    intro hk
    by_cases ht : k ∈ t
    · obtain ⟨j, hj, hjk, hlast⟩ := ih ht
      exact ⟨j + 1, by simpa using hj, by simpa using hjk, by simpa using hlast⟩
    · have hkh : k = h := by
        rcases List.mem_cons.mp hk with h' | h'
        · exact h'
        · exact absurd h' ht
      subst hkh
      exact ⟨0, by simp, rfl, by simpa using ht⟩

/-! ## Lemmas on the Phase-2 loop -/

/-- A row step never panics; it leaves `running` alone, counts the row once
as seen and once as stored or rejected, and submits the document of the row
exactly when the row is as long as the header. -/
theorem phase2Step_row (client : Client) (dbName collectionName : String)
    (headers : List String) (s : State) (record : List String) :
    ∃ s', phase2Step client dbName collectionName headers s (.row record) = some s' ∧
      s'.running = s.running ∧
      s'.recordsProcessed = s.recordsProcessed + 1 ∧
      s'.successfulInserts + s'.failedInserts = s.successfulInserts + s.failedInserts + 1 ∧
      s'.submitted.map some = s.submitted.map some ++
        (if record.length = headers.length then [buildDoc headers record] else []) := by
  by_cases hlen : record.length = headers.length
  · obtain ⟨doc, hdoc⟩ := buildDoc_isSome headers record hlen
    cases hins : insertData client dbName collectionName s.submitted doc with
    | error e =>
      have hstep : phase2Step client dbName collectionName headers s (.row record) =
          some { s with recordsProcessed := s.recordsProcessed + 1,
                        failedInserts := s.failedInserts + 1,
                        submitted := s.submitted ++ [doc] } := by
        simp only [phase2Step, hlen, hdoc, hins, ne_eq, not_true_eq_false, if_false]
      refine ⟨_, hstep, rfl, rfl, ?_, ?_⟩
      · simp only; omega
      · simp [hlen, hdoc]
    | ok r =>
      have hstep : phase2Step client dbName collectionName headers s (.row record) =
          some { s with recordsProcessed := s.recordsProcessed + 1,
                        successfulInserts := s.successfulInserts + 1,
                        submitted := s.submitted ++ [doc] } := by
        simp only [phase2Step, hlen, hdoc, hins, ne_eq, not_true_eq_false, if_false]
      refine ⟨_, hstep, rfl, rfl, ?_, ?_⟩
      · simp only; omega
      · simp [hlen, hdoc]
  · have hstep : phase2Step client dbName collectionName headers s (.row record) =
        some { s with recordsProcessed := s.recordsProcessed + 1,
                      failedInserts := s.failedInserts + 1 } := by
      simp only [phase2Step, hlen, ne_eq, not_false_eq_true, if_true]
    refine ⟨_, hstep, rfl, rfl, ?_, ?_⟩
    · simp only; omega
    · simp [hlen]

/-- No step of the loop panics. -/
theorem phase2Step_isSome (client : Client) (dbName collectionName : String)
    (headers : List String) (s : State) (e : Event) :
    ∃ s', phase2Step client dbName collectionName headers s e = some s' := by
  cases e with
  | row record =>
    obtain ⟨s', h, _⟩ := phase2Step_row client dbName collectionName headers s record
    exact ⟨s', h⟩
  | dataClosed => exact ⟨_, rfl⟩
  | parseError err => exact ⟨_, rfl⟩
  | timeout =>
    by_cases h : s.recordsProcessed = 0 ∧ s.successfulInserts = 0 ∧ s.failedInserts = 0
    · exact ⟨{ s with running := false }, by simp only [phase2Step, h, and_self, if_true]⟩
    · exact ⟨s, by simp only [phase2Step, h, if_false]⟩

/-- The loop never panics. -/
theorem phase2_isSome (client : Client) (dbName collectionName : String)
    (headers : List String) (events : List Event) :
    ∀ s, ∃ s', phase2 client dbName collectionName headers s events = some s' := by
  induction events with
  | nil => exact fun s => ⟨s, rfl⟩
  | cons e es ih =>
    intro s
    by_cases hrun : s.running = true
    · obtain ⟨s₁, h₁⟩ := phase2Step_isSome client dbName collectionName headers s e
      obtain ⟨s₂, h₂⟩ := ih s₁
      exact ⟨s₂, by simp only [phase2, hrun, h₁, h₂, if_true]⟩
    · exact ⟨s, by simp only [phase2, hrun, if_false]; simp⟩

/-- Rows followed by the closure of the row channel, from any running state:
the loop ends, having counted every row once as seen and once as stored or
rejected. -/
theorem phase2_rows_then_closed (client : Client) (dbName collectionName : String)
    (headers : List String) (rows : List (List String)) :
    ∀ s, s.running = true →
      ∃ s', phase2 client dbName collectionName headers s
          (rows.map Event.row ++ [Event.dataClosed]) = some s' ∧
        s'.running = false ∧
        s'.recordsProcessed = s.recordsProcessed + rows.length ∧
        s'.successfulInserts + s'.failedInserts =
          s.successfulInserts + s.failedInserts + rows.length := by
  induction rows with
  | nil =>
    intro s hrun
    exact ⟨{ s with running := false }, by simp [phase2, phase2Step, hrun], rfl, rfl, rfl⟩
  | cons r rs ih =>
    intro s hrun
    obtain ⟨s₁, h₁, hrun₁, hseen₁, hsum₁, _⟩ :=
      phase2Step_row client dbName collectionName headers s r
    obtain ⟨s₂, h₂, hrun₂, hseen₂, hsum₂⟩ := ih s₁ (hrun₁.trans hrun)
    refine ⟨s₂, ?_, hrun₂, ?_, ?_⟩
    · show phase2 client dbName collectionName headers s
        (Event.row r :: (rs.map Event.row ++ [Event.dataClosed])) = some s₂
      simp only [phase2, hrun, h₁, h₂, if_true]
    · simp only [List.length_cons]; omega
    · simp only [List.length_cons]; omega

/-- Once `running` is false the loop consumes nothing. -/
theorem phase2_stopped (client : Client) (dbName collectionName : String)
    (headers : List String) (s : State) (hrun : s.running = false) (events : List Event) :
    phase2 client dbName collectionName headers s events = some s := by
  cases events with
  | nil => rfl
  | cons e es => simp [phase2, hrun]

/-- Running the loop on `es ++ es'` is running it on `es` and going on from
the state reached with `es'`. -/
theorem phase2_append (client : Client) (dbName collectionName : String)
    (headers : List String) (es es' : List Event) :
    ∀ s, phase2 client dbName collectionName headers s (es ++ es') =
      (phase2 client dbName collectionName headers s es).bind
        (fun s' => phase2 client dbName collectionName headers s' es') := by
  induction es with
  | nil => exact fun s => rfl
  | cons e es ih =>
    intro s
    by_cases hrun : s.running = true
    · cases hstep : phase2Step client dbName collectionName headers s e with
      | none => simp [phase2, hrun, hstep]
      | some s₁ => simp [phase2, hrun, hstep, ih s₁]
    · have hstop : s.running = false := by simpa using hrun
      simp [phase2, hstop, phase2_stopped client dbName collectionName headers s hstop es']

/-- Rows and parse errors, in any interleaving, from any running state: the
loop keeps running, and the documents it passes to `insertData` are those of
the rows as long as the header, in the order the rows came. -/
theorem phase2_rows_and_errors (client : Client) (dbName collectionName : String)
    (headers : List String) (events : List Event)
    (hsrc : ∀ e ∈ events, e ≠ Event.dataClosed ∧ e ≠ Event.timeout) :
    ∀ s, s.running = true →
      ∃ s', phase2 client dbName collectionName headers s events = some s' ∧
        s'.running = true ∧
        s'.recordsProcessed = s.recordsProcessed + (rowsReceived events).length ∧
        s'.submitted.map some = s.submitted.map some ++
          ((rowsReceived events).filter (fun r => decide (r.length = headers.length))).map
            (buildDoc headers) := by
  induction events with
  | nil => exact fun s hrun => ⟨s, rfl, hrun, rfl, by simp [rowsReceived]⟩
  | cons e es ih =>
    intro s hrun
    have hes : ∀ e' ∈ es, e' ≠ Event.dataClosed ∧ e' ≠ Event.timeout :=
      fun e' he' => hsrc e' (List.mem_cons_of_mem e he')
    have he := hsrc e (List.mem_cons_self e es)
    cases e with
    | row r =>
      obtain ⟨s₁, h₁, hrun₁, hseen₁, _, hsub₁⟩ :=
        phase2Step_row client dbName collectionName headers s r
      obtain ⟨s₂, h₂, hrun₂, hseen₂, hsub₂⟩ := ih hes s₁ (hrun₁.trans hrun)
      refine ⟨s₂, by simp only [phase2, hrun, h₁, h₂, if_true], hrun₂, ?_, ?_⟩
      · simp only [rowsReceived, List.length_cons]; omega
      · rw [hsub₂, hsub₁]
        by_cases hlen : r.length = headers.length
        · simp [rowsReceived, hlen]
        · simp [rowsReceived, hlen]
    | parseError err =>
      obtain ⟨s₂, h₂, hrun₂, hseen₂, hsub₂⟩ := ih hes s hrun
      exact ⟨s₂, by simp only [phase2, phase2Step, hrun, h₂, if_true], hrun₂,
        by simpa [rowsReceived] using hseen₂, by simpa [rowsReceived] using hsub₂⟩
    | dataClosed => exact absurd rfl he.1
    | timeout => exact absurd rfl he.2

/-! ## Lemmas on `readCSV` -/

theorem headersSent_append (xs ys : List Action) :
    headersSent (xs ++ ys) = headersSent xs ++ headersSent ys := by
  induction xs with
  | nil => rfl
  | cons a xs ih => cases a <;> simp [headersSent, ih]

theorem rowsSent_append (xs ys : List Action) :
    rowsSent (xs ++ ys) = rowsSent xs ++ rowsSent ys := by
  induction xs with
  | nil => rfl
  | cons a xs ih => cases a <;> simp [rowsSent, ih]

theorem errorsSent_append (xs ys : List Action) :
    errorsSent (xs ++ ys) = errorsSent xs ++ errorsSent ys := by
  induction xs with
  | nil => rfl
  | cons a xs ih => cases a <;> simp [errorsSent, ih]

/-- The record loop sends no header. -/
theorem headersSent_readRecords (filePath : String) (results : List ReadResult) :
    ∀ n, headersSent (readRecords filePath n results) = [] := by
  induction results with
  | nil => exact fun _ => rfl
  | cons r rest ih => intro n; cases r <;> simp [readRecords, headersSent, ih]

/-- The record loop sends the parsed records, in order. -/
theorem rowsSent_readRecords (filePath : String) (results : List ReadResult) :
    ∀ n, rowsSent (readRecords filePath n results) =
      results.filterMap (fun r => match r with | .record fields => some fields | .failure _ => none) := by
  induction results with
  | nil => exact fun _ => rfl
  | cons r rest ih => intro n; cases r <;> simp [readRecords, rowsSent, ih]

/-- The record loop sends one error for each failed read. -/
theorem errorsSent_readRecords_length (filePath : String) (results : List ReadResult) :
    ∀ n, (errorsSent (readRecords filePath n results)).length =
      (results.filter (fun r => match r with | .record _ => false | .failure _ => true)).length := by
  induction results with
  | nil => exact fun _ => rfl
  | cons r rest ih => intro n; cases r <;> simp [readRecords, errorsSent, ih]

/-- The record loop performs one send for each result, in order: the record
on `dataChan`, or the error of the failed read, tagged with its line number,
on `errChan`. -/
theorem readRecords_eq_map (filePath : String) (results : List ReadResult) :
    ∀ n, readRecords filePath n results =
      (results.enumFrom (n + 1)).map (fun nr => match nr.2 with
        | .record fields => Action.sendData fields
        | .failure err => Action.sendErr (recordErrorMsg nr.1 filePath err)) := by
  induction results with
  | nil => exact fun _ => rfl
  | cons r rest ih => intro n; cases r <;> simp [readRecords, List.enumFrom, ih]

/-- A run of row sends, projected on each channel. -/
theorem headersSent_map_sendData (rs : List (List String)) :
    headersSent (rs.map Action.sendData) = [] := by
  induction rs with
  | nil => rfl
  | cons r rest ih => simpa [headersSent] using ih

theorem rowsSent_map_sendData (rs : List (List String)) :
    rowsSent (rs.map Action.sendData) = rs := by
  induction rs with
  | nil => rfl
  | cons r rest ih => simpa [rowsSent] using ih

theorem errorsSent_map_sendData (rs : List (List String)) :
    errorsSent (rs.map Action.sendData) = [] := by
  induction rs with
  | nil => rfl
  | cons r rest ih => simpa [errorsSent] using ih

/-- On records that all parse, the record loop sends them all, in order. -/
theorem readRecords_all_parsed (filePath : String) (rs : List (List String)) :
    ∀ n, readRecords filePath n (rs.map ReadResult.record) = rs.map Action.sendData := by
  induction rs with
  | nil => exact fun _ => rfl
  | cons r rest ih => intro n; simp [readRecords, ih]

/-! ## The claims -/

/-- C1. For every header, every finite stream of `N` rows, of any field
counts, followed by the closure of the row channel, and every behaviour of
the sink, the Phase-2 loop of `main` ends (without panic, `running` false)
with `recordsProcessed = N` and `successfulInserts + failedInserts = N`. -/
theorem phase2_counts_rows (client : Client) (dbName collectionName : String)
    (headers : List String) (rows : List (List String)) :
    ∃ s, phase2 client dbName collectionName headers initState
        (rows.map Event.row ++ [Event.dataClosed]) = some s ∧
      s.running = false ∧
      s.recordsProcessed = rows.length ∧
      s.successfulInserts + s.failedInserts = rows.length := by
  obtain ⟨s, h, hrun, hseen, hsum⟩ :=
    phase2_rows_then_closed client dbName collectionName headers rows initState rfl
  refine ⟨s, h, hrun, ?_, ?_⟩
  · simpa [initState] using hseen
  · simpa [initState] using hsum

/-- C2. A row whose field count differs from the header's is counted as seen
and as rejected, once each, and nothing else changes: the stored count and
the list of documents passed to `insertData` stay as they were, whatever the
sink is. -/
theorem phase2Step_length_mismatch (client : Client) (dbName collectionName : String)
    (headers : List String) (s : State) (record : List String)
    (hlen : record.length ≠ headers.length) :
    phase2Step client dbName collectionName headers s (.row record) =
      some { running := s.running
             recordsProcessed := s.recordsProcessed + 1
             successfulInserts := s.successfulInserts
             failedInserts := s.failedInserts + 1
             submitted := s.submitted } := by
  simp only [phase2Step, hlen, ne_eq, not_false_eq_true, if_true]

/-- Witness of C2: header of two fields, row of one, a sink that would have
accepted anything. -/
theorem phase2Step_length_mismatch_witness :
    ["123"].length ≠ ["ID", "Name"].length ∧
    phase2Step (fun _ _ => .ok "id") "bulkcsv" "processed_data" ["ID", "Name"]
        initState (.row ["123"]) =
      some { running := true, recordsProcessed := 1, successfulInserts := 0,
             failedInserts := 1, submitted := [] } :=
  ⟨by decide,
   phase2Step_length_mismatch (fun _ _ => .ok "id") "bulkcsv" "processed_data"
     ["ID", "Name"] initState ["123"] (by decide)⟩

/-- C3, as stated, fails when a header name is repeated: for the header
`A,A` and the row `x,y`, of equal length, the document built is `{A: y}`,
which does not map the header field at position 0 to the row value at
position 0. -/
theorem buildDoc_repeated_header_counterexample :
    ["x", "y"].length = ["A", "A"].length ∧
    ["A", "A"].get? 0 = some "A" ∧ ["x", "y"].get? 0 = some "x" ∧
    buildDoc ["A", "A"] ["x", "y"] = some [("A", "y")] ∧
    docGet [("A", "y")] "A" ≠ some "x" := by
  decide

/-- C3, amended. For every header and row of equal length, the loop of `main`
builds a document, which is the one passed to `insertData`, such that: for
every position `j` whose header field does not occur again at a later
position, the document maps `headers[j]` to `record[j]`; no key of the
document is outside the header; and for the empty header and the empty row
the document is empty. -/
theorem buildDoc_zip (client : Client) (dbName collectionName : String)
    (headers record : List String) (hlen : record.length = headers.length) :
    ∃ doc, buildDoc headers record = some doc ∧
      (∀ s, ∃ s', phase2Step client dbName collectionName headers s (.row record) = some s' ∧
        s'.submitted = s.submitted ++ [doc]) ∧
      (∀ j (hj : j < headers.length), headers.get ⟨j, hj⟩ ∉ headers.drop (j + 1) →
        docGet doc (headers.get ⟨j, hj⟩) = some (record.get ⟨j, hlen ▸ hj⟩)) ∧
      (∀ k, k ∉ headers → docGet doc k = none) ∧
      buildDoc [] [] = some [] := by
  obtain ⟨doc, hdoc, hout, hin⟩ := fillDoc_spec record headers 0 [] (by omega)
  refine ⟨doc, hdoc, ?_, ?_, ?_, rfl⟩
  · intro s
    obtain ⟨s', hs', _, _, _, hsub⟩ :=
      phase2Step_row client dbName collectionName headers s record
    refine ⟨s', hs', ?_⟩
    have hdoc' : buildDoc headers record = some doc := hdoc
    rw [if_pos hlen, hdoc'] at hsub
    have : s'.submitted.map some = (s.submitted ++ [doc]).map some := by simpa using hsub
    exact List.map_injective_iff.mpr (Option.some_injective _) this
  · intro j hj hlast
    have := hin j hj hlast
    rw [Nat.zero_add, List.get?_eq_get (hlen ▸ hj)] at this
    exact this
  · intro k hk
    exact hout k hk

/-- Witness of C3, amended: the header `A,B` and the row `x,y`. -/
theorem buildDoc_zip_witness :
    ["x", "y"].length = ["A", "B"].length ∧
    ∃ doc, buildDoc ["A", "B"] ["x", "y"] = some doc ∧
      (∀ s, ∃ s', phase2Step (fun _ _ => .ok "id") "bulkcsv" "processed_data" ["A", "B"] s
          (.row ["x", "y"]) = some s' ∧ s'.submitted = s.submitted ++ [doc]) ∧
      (∀ j (hj : j < ["A", "B"].length), ["A", "B"].get ⟨j, hj⟩ ∉ ["A", "B"].drop (j + 1) →
        docGet doc (["A", "B"].get ⟨j, hj⟩) = some (["x", "y"].get ⟨j, hj⟩)) ∧
      (∀ k, k ∉ ["A", "B"] → docGet doc k = none) ∧
      buildDoc [] [] = some [] :=
  ⟨rfl,
   buildDoc_zip (fun _ _ => .ok "id") "bulkcsv" "processed_data" ["A", "B"] ["x", "y"] rfl⟩

/-- C4. For every header and every finite sequence of row events interleaved
with parse-error events, the documents `main` passes to `insertData`, in call
order, are the documents of exactly the rows as long as the header, in the
order the rows were received, both while the loop waits for the next event
and after the row channel is closed. In particular, for the header
`ID,Name,Value`, the rows `1,First,100` and `2,Second,200` and a sink that
always succeeds, the two documents are submitted in that order and the
counters end at 2 seen, 2 stored, 0 rejected. -/
theorem phase2_submits_in_order (client : Client) (dbName collectionName : String)
    (headers : List String) (events : List Event)
    (hsrc : ∀ e ∈ events, e ≠ Event.dataClosed ∧ e ≠ Event.timeout) :
    (∃ s, phase2 client dbName collectionName headers initState events = some s ∧
      s.running = true ∧
      s.submitted.map some =
        ((rowsReceived events).filter (fun r => decide (r.length = headers.length))).map
          (buildDoc headers)) ∧
    (∃ s, phase2 client dbName collectionName headers initState
        (events ++ [Event.dataClosed]) = some s ∧
      s.running = false ∧
      s.submitted.map some =
        ((rowsReceived events).filter (fun r => decide (r.length = headers.length))).map
          (buildDoc headers)) ∧
    (∀ ids : List Doc → Doc → String,
      main (fun earlier data => .ok (ids earlier data)) dbName collectionName
          (.header ["ID", "Name", "Value"])
          [.row ["1", "First", "100"], .row ["2", "Second", "200"], .dataClosed] =
        .drained ["ID", "Name", "Value"]
          { running := false, recordsProcessed := 2, successfulInserts := 2,
            failedInserts := 0,
            submitted := [[("ID", "1"), ("Name", "First"), ("Value", "100")],
                          [("ID", "2"), ("Name", "Second"), ("Value", "200")]] }) := by
  obtain ⟨s, hs, hrun, _, hsub⟩ :=
    phase2_rows_and_errors client dbName collectionName headers events hsrc initState rfl
  have hsub' : s.submitted.map some =
      ((rowsReceived events).filter (fun r => decide (r.length = headers.length))).map
        (buildDoc headers) := by
    simpa [initState] using hsub
  refine ⟨⟨s, hs, hrun, hsub'⟩, ⟨{ s with running := false }, ?_, rfl, hsub'⟩, ?_⟩
  · rw [phase2_append, hs]
    simp [phase2, phase2Step, hrun]
  · intro ids
    rfl

/-- Witness of C4: a short row, a parse error and a row of the right length. -/
theorem phase2_submits_in_order_witness :
    (∀ e ∈ [Event.row ["1"], Event.parseError "bad quote", Event.row ["2", "Second"]],
      e ≠ Event.dataClosed ∧ e ≠ Event.timeout) ∧
    (∃ s, phase2 (fun _ _ => .ok "id") "bulkcsv" "processed_data" ["ID", "Name"] initState
        ([Event.row ["1"], Event.parseError "bad quote", Event.row ["2", "Second"]] ++
          [Event.dataClosed]) = some s ∧
      s.running = false ∧
      s.submitted.map some =
        ((rowsReceived [Event.row ["1"], Event.parseError "bad quote",
            Event.row ["2", "Second"]]).filter
          (fun r => decide (r.length = ["ID", "Name"].length))).map
          (buildDoc ["ID", "Name"])) :=
  ⟨by decide,
   (phase2_submits_in_order (fun _ _ => .ok "id") "bulkcsv" "processed_data" ["ID", "Name"]
     [Event.row ["1"], Event.parseError "bad quote", Event.row ["2", "Second"]]
     (by decide)).2.1⟩

/-- C5. When the file opens and the reader yields the records `r0, r1, ...,
rN`, all without error and of any field counts, and then the end of input,
`readCSV` sends `r0` verbatim as the header, then `r1, ..., rN` unchanged and
in order as rows, sends no error, and closes the row channel and the header
channel after the last row; for `N = 0` it sends no row. -/
theorem readCSV_valid (filePath : String) (r0 : List String) (rs : List (List String)) :
    readCSV filePath (.opened ((r0 :: rs).map ReadResult.record)) =
        Action.sendHeader r0 :: rs.map Action.sendData ++
          [Action.closeFile, Action.closeData, Action.closeHeader, Action.wgDone] ∧
    headersSent (readCSV filePath (.opened ((r0 :: rs).map ReadResult.record))) = [r0] ∧
    rowsSent (readCSV filePath (.opened ((r0 :: rs).map ReadResult.record))) = rs ∧
    errorsSent (readCSV filePath (.opened ((r0 :: rs).map ReadResult.record))) = [] ∧
    readCSV filePath (.opened [.record r0]) =
      [Action.sendHeader r0, Action.closeFile, Action.closeData, Action.closeHeader,
        Action.wgDone] := by
  have htrace : readCSV filePath (.opened ((r0 :: rs).map ReadResult.record)) =
      Action.sendHeader r0 :: rs.map Action.sendData ++
        [Action.closeFile, Action.closeData, Action.closeHeader, Action.wgDone] := by
    simp only [List.map_cons, readCSV, readRecords_all_parsed]
  refine ⟨htrace, ?_, ?_, ?_, rfl⟩
  · rw [htrace]
    simp [headersSent, headersSent_append, headersSent_map_sendData]
  · rw [htrace]
    simp [rowsSent, rowsSent_append, rowsSent_map_sendData]
  · rw [htrace]
    simp [errorsSent, errorsSent_append, errorsSent_map_sendData]

/-- C6. When opening the file fails, or the header read fails, be it with the
end of input (zero-byte file) or with another error, `readCSV` sends exactly
one error and then closes the channels, sending no header and no row; and
the error sent for the end of input, which says the file is empty, differs
from the error sent for any other failure of the header read. -/
theorem readCSV_fatal (filePath : String) :
    (∀ err, readCSV filePath (.openFails err) =
      [Action.sendErr (openErrorMsg filePath err), Action.closeData, Action.closeHeader,
        Action.wgDone]) ∧
    readCSV filePath (.opened []) =
      [Action.sendErr (emptyFileMsg filePath), Action.closeFile, Action.closeData,
        Action.closeHeader, Action.wgDone] ∧
    (∀ err rest, readCSV filePath (.opened (.failure err :: rest)) =
      [Action.sendErr (headerErrorMsg filePath err), Action.closeFile, Action.closeData,
        Action.closeHeader, Action.wgDone]) ∧
    (∀ err, headersSent (readCSV filePath (.openFails err)) = [] ∧
      rowsSent (readCSV filePath (.openFails err)) = [] ∧
      (errorsSent (readCSV filePath (.openFails err))).length = 1) ∧
    (headersSent (readCSV filePath (.opened [])) = [] ∧
      rowsSent (readCSV filePath (.opened [])) = [] ∧
      (errorsSent (readCSV filePath (.opened []))).length = 1) ∧
    (∀ err rest, headersSent (readCSV filePath (.opened (.failure err :: rest))) = [] ∧
      rowsSent (readCSV filePath (.opened (.failure err :: rest))) = [] ∧
      (errorsSent (readCSV filePath (.opened (.failure err :: rest)))).length = 1) ∧
    (∀ err, emptyFileMsg filePath ≠ headerErrorMsg filePath err) := by
  refine ⟨fun _ => rfl, rfl, fun _ _ => rfl, fun _ => ⟨rfl, rfl, rfl⟩, ⟨rfl, rfl, rfl⟩,
    fun _ _ => ⟨rfl, rfl, rfl⟩, ?_⟩
  intro err h
  have h' := congrArg (fun m => m.data.get? 7) h
  simp [emptyFileMsg, headerErrorMsg, logErrorPrefix, String.data_append] at h'

/-- C7. When the header reads and the reader then yields a finite sequence of
results, each a parsed row or a failure other than the end of input, and
then the end of input, `readCSV` performs after the header one send per
result, in order: the row for a parsed row, one error and no row for a
failed line, and goes on reading after a failure. So the rows sent are the
parsed rows in their order and there are as many errors as failed lines; a
malformed line between two well-formed ones yields both rows, in order, and
one error. -/
theorem readCSV_skips_failures (filePath : String) (header : List String)
    (results : List ReadResult) :
    readCSV filePath (.opened (.record header :: results)) =
        Action.sendHeader header ::
          (results.enumFrom 2).map (fun nr => match nr.2 with
            | .record fields => Action.sendData fields
            | .failure err => Action.sendErr (recordErrorMsg nr.1 filePath err)) ++
          [Action.closeFile, Action.closeData, Action.closeHeader, Action.wgDone] ∧
    headersSent (readCSV filePath (.opened (.record header :: results))) = [header] ∧
    rowsSent (readCSV filePath (.opened (.record header :: results))) =
      results.filterMap (fun r => match r with
        | .record fields => some fields
        | .failure _ => none) ∧
    (errorsSent (readCSV filePath (.opened (.record header :: results)))).length =
      (results.filter (fun r => match r with
        | .record _ => false
        | .failure _ => true)).length ∧
    (∀ a b err, readCSV filePath (.opened [.record header, .record a, .failure err, .record b]) =
      [Action.sendHeader header, Action.sendData a,
        Action.sendErr (recordErrorMsg 3 filePath err), Action.sendData b,
        Action.closeFile, Action.closeData, Action.closeHeader, Action.wgDone]) := by
  refine ⟨?_, ?_, ?_, ?_, fun _ _ _ => rfl⟩
  · simp only [readCSV, readRecords_eq_map]
  · simp [readCSV, headersSent, headersSent_append, headersSent_readRecords]
  · simp [readCSV, rowsSent, rowsSent_append, rowsSent_readRecords]
  · simp [readCSV, errorsSent, errorsSent_append, errorsSent_readRecords_length]

/-- C8. In a state of the Phase-2 loop, the idle timeout ends the loop
(`running` becomes false) exactly when the three counters are all zero, and
leaves it running when one of them is not; in both cases the counters and
the documents passed to `insertData` are unchanged. -/
theorem phase2Step_timeout (client : Client) (dbName collectionName : String)
    (headers : List String) (s : State) (hrun : s.running = true) :
    ∃ s', phase2Step client dbName collectionName headers s .timeout = some s' ∧
      (s'.running = false ↔
        (s.recordsProcessed = 0 ∧ s.successfulInserts = 0 ∧ s.failedInserts = 0)) ∧
      (s'.running = true ↔
        ¬ (s.recordsProcessed = 0 ∧ s.successfulInserts = 0 ∧ s.failedInserts = 0)) ∧
      s'.recordsProcessed = s.recordsProcessed ∧
      s'.successfulInserts = s.successfulInserts ∧
      s'.failedInserts = s.failedInserts ∧
      s'.submitted = s.submitted := by
  by_cases h : s.recordsProcessed = 0 ∧ s.successfulInserts = 0 ∧ s.failedInserts = 0
  · refine ⟨{ s with running := false }, ?_, ?_, ?_, rfl, rfl, rfl, rfl⟩
    · simp only [phase2Step, h, and_self, if_true]
    · simp [h]
    · simp [h]
  · refine ⟨s, ?_, ?_, ?_, rfl, rfl, rfl, rfl⟩
    · simp only [phase2Step, h, if_false]
    · simp [h, hrun]
    · simp [h, hrun]

/-- Witness of C8: the timeout at the start of Phase 2, with no activity. -/
theorem phase2Step_timeout_witness :
    initState.running = true ∧
    ∃ s', phase2Step (fun _ _ => .ok "id") "bulkcsv" "processed_data" ["ID", "Name"]
        initState .timeout = some s' ∧
      (s'.running = false ↔
        (initState.recordsProcessed = 0 ∧ initState.successfulInserts = 0 ∧
          initState.failedInserts = 0)) ∧
      (s'.running = true ↔
        ¬ (initState.recordsProcessed = 0 ∧ initState.successfulInserts = 0 ∧
          initState.failedInserts = 0)) ∧
      s'.recordsProcessed = initState.recordsProcessed ∧
      s'.successfulInserts = initState.successfulInserts ∧
      s'.failedInserts = initState.failedInserts ∧
      s'.submitted = initState.submitted :=
  ⟨rfl, phase2Step_timeout (fun _ _ => .ok "id") "bulkcsv" "processed_data" ["ID", "Name"]
    initState rfl⟩

/-- C9. In a state of the Phase-2 loop, receiving a parse error changes
nothing: the three counters and the documents passed to `insertData` are as
before, `running` stays true, and the loop goes on with the next event. -/
theorem phase2Step_parseError (client : Client) (dbName collectionName : String)
    (headers : List String) (s : State) (err : String) (hrun : s.running = true) :
    ∃ s', phase2Step client dbName collectionName headers s (.parseError err) = some s' ∧
      s'.running = true ∧
      s'.recordsProcessed = s.recordsProcessed ∧
      s'.successfulInserts = s.successfulInserts ∧
      s'.failedInserts = s.failedInserts ∧
      s'.submitted = s.submitted ∧
      ∀ es, phase2 client dbName collectionName headers s (.parseError err :: es) =
        phase2 client dbName collectionName headers s es :=
  ⟨s, rfl, hrun, rfl, rfl, rfl, rfl, fun es => by simp only [phase2, phase2Step, hrun, if_true]⟩

/-- Witness of C9: a parse error after one stored row. -/
theorem phase2Step_parseError_witness :
    (State.mk true 1 1 0 [[("ID", "1")]]).running = true ∧
    ∃ s', phase2Step (fun _ _ => .ok "id") "bulkcsv" "processed_data" ["ID"]
        (State.mk true 1 1 0 [[("ID", "1")]]) (.parseError "bare quote") = some s' ∧
      s'.running = true ∧
      s'.recordsProcessed = 1 ∧
      s'.successfulInserts = 1 ∧
      s'.failedInserts = 0 ∧
      s'.submitted = [[("ID", "1")]] ∧
      ∀ es, phase2 (fun _ _ => .ok "id") "bulkcsv" "processed_data" ["ID"]
          (State.mk true 1 1 0 [[("ID", "1")]]) (.parseError "bare quote" :: es) =
        phase2 (fun _ _ => .ok "id") "bulkcsv" "processed_data" ["ID"]
          (State.mk true 1 1 0 [[("ID", "1")]]) es :=
  ⟨rfl, phase2Step_parseError (fun _ _ => .ok "id") "bulkcsv" "processed_data" ["ID"]
    (State.mk true 1 1 0 [[("ID", "1")]]) "bare quote" rfl⟩

/-- C10. Phase 1 of `main` succeeds, with `headers` set to the value
received, exactly when the first event selected is a header received from
the open header channel, and the run then goes on to Phase 2 with that
header. When the first event is a parse error, the closure of the header
channel or the timeout, the run aborts in `log.Fatalf`, whatever events
would have followed: no row is processed, no document is passed to
`insertData` and the counters are zero. -/
theorem main_phase1 (client : Client) (dbName collectionName : String)
    (events : List Event) :
    (∀ first h, phase1 first = .ok h ↔ first = .header h) ∧
    (∀ h, ∃ s, phase2 client dbName collectionName h initState events = some s ∧
      main client dbName collectionName (.header h) events = .drained h s) ∧
    main client dbName collectionName .headerClosed events =
      .fatal (logErrorPrefix ++ "Failed to receive header: header channel closed unexpectedly.")
        0 0 0 [] ∧
    (∀ err, main client dbName collectionName (.parseError err) events =
      .fatal (logErrorPrefix ++ "Critical error during CSV reading setup: " ++ err) 0 0 0 []) ∧
    main client dbName collectionName .timeout events =
      .fatal (logErrorPrefix ++ "Timeout waiting for CSV header.") 0 0 0 [] := by
  refine ⟨?_, ?_, rfl, fun _ => rfl, rfl⟩
  · intro first h
    cases first <;> simp [phase1]
  · intro h
    obtain ⟨s, hs⟩ := phase2_isSome client dbName collectionName h events initState
    exact ⟨s, hs, by simp only [main, phase1, hs]⟩

/-- C11. For every header and row of equal length, the document built in the
Phase-2 loop of `main` has no repeated key and exactly as many keys as there
are distinct header field names, its keys being the header field names; each
key maps to the row value at the last position where that name occurs in the
header, so every header position holding a repeated name reads back the value
of the last occurrence and the values at the earlier positions are not in the
document. The row is still passed to `insertData`, and when the sink accepts
the document the row is counted as stored: for the header `A,A` and the row
`x,y` the document `{A: y}` is submitted and `successfulInserts` becomes 1. -/
theorem buildDoc_last_wins (client : Client) (dbName collectionName : String)
    (headers record : List String) (hlen : record.length = headers.length) :
    ∃ doc, buildDoc headers record = some doc ∧
      (docKeys doc).Nodup ∧
      (docKeys doc).length = headers.dedup.length ∧
      (∀ k, k ∈ docKeys doc ↔ k ∈ headers) ∧
      (∀ k, k ∈ docKeys doc →
        ∃ j, ∃ hj : j < headers.length, headers.get ⟨j, hj⟩ = k ∧
          k ∉ headers.drop (j + 1) ∧
          docGet doc k = some (record.get ⟨j, hlen ▸ hj⟩)) ∧
      (∀ i (hi : i < headers.length) j (hj : j < headers.length),
        headers.get ⟨i, hi⟩ = headers.get ⟨j, hj⟩ →
        headers.get ⟨j, hj⟩ ∉ headers.drop (j + 1) →
        docGet doc (headers.get ⟨i, hi⟩) = some (record.get ⟨j, hlen ▸ hj⟩)) ∧
      (∀ s id, client s.submitted doc = .ok id →
        phase2Step client dbName collectionName headers s (.row record) =
          some { running := s.running
                 recordsProcessed := s.recordsProcessed + 1
                 successfulInserts := s.successfulInserts + 1
                 failedInserts := s.failedInserts
                 submitted := s.submitted ++ [doc] }) ∧
      (∀ ids : List Doc → Doc → String,
        phase2Step (fun earlier data => .ok (ids earlier data)) dbName collectionName
            ["A", "A"] initState (.row ["x", "y"]) =
          some { running := true, recordsProcessed := 1, successfulInserts := 1,
                 failedInserts := 0, submitted := [[("A", "y")]] }) := by
  obtain ⟨doc, hdoc, _, hin⟩ := fillDoc_spec record headers 0 [] (by omega)
  have hbuild : buildDoc headers record = some doc := hdoc
  obtain ⟨hnd, hmem⟩ := fillDoc_keys record headers 0 [] doc hdoc (by simp [docKeys])
  have hkeys : ∀ k, k ∈ docKeys doc ↔ k ∈ headers := by
    intro k
    rw [hmem k]
    simp [docKeys]
  have hlast : ∀ j (hj : j < headers.length), headers.get ⟨j, hj⟩ ∉ headers.drop (j + 1) →
      docGet doc (headers.get ⟨j, hj⟩) = some (record.get ⟨j, hlen ▸ hj⟩) := by
    intro j hj hl
    have := hin j hj hl
    rw [Nat.zero_add, List.get?_eq_get (hlen ▸ hj)] at this
    exact this
  refine ⟨doc, hbuild, hnd, ?_, hkeys, ?_, ?_, ?_, fun _ => rfl⟩
  · refine List.Perm.length_eq ?_
    refine (List.perm_ext_iff_of_nodup hnd (List.nodup_dedup headers)).mpr (fun k => ?_)
    rw [hkeys k, List.mem_dedup]
  · intro k hk
    obtain ⟨j, hj, hjk, hl⟩ := exists_last_position k headers ((hkeys k).mp hk)
    refine ⟨j, hj, hjk, hjk ▸ hl, ?_⟩
    rw [← hjk]
    exact hlast j hj hl
  · intro i hi j hj hij hl
    rw [hij]
    exact hlast j hj hl
  · intro s id hok
    simp only [phase2Step, hlen, hbuild, insertData, hok, ne_eq, not_true_eq_false, if_false]

/-- Witness of C11: the header `A,B,A` and the row `x,y,z`. -/
theorem buildDoc_last_wins_witness :
    ["x", "y", "z"].length = ["A", "B", "A"].length ∧
    ∃ doc, buildDoc ["A", "B", "A"] ["x", "y", "z"] = some doc ∧
      (docKeys doc).Nodup ∧
      (docKeys doc).length = ["A", "B", "A"].dedup.length ∧
      (∀ k, k ∈ docKeys doc ↔ k ∈ ["A", "B", "A"]) ∧
      (∀ k, k ∈ docKeys doc →
        ∃ j, ∃ hj : j < ["A", "B", "A"].length, ["A", "B", "A"].get ⟨j, hj⟩ = k ∧
          k ∉ ["A", "B", "A"].drop (j + 1) ∧
          docGet doc k = some (["x", "y", "z"].get ⟨j, hj⟩)) ∧
      (∀ i (hi : i < ["A", "B", "A"].length) j (hj : j < ["A", "B", "A"].length),
        ["A", "B", "A"].get ⟨i, hi⟩ = ["A", "B", "A"].get ⟨j, hj⟩ →
        ["A", "B", "A"].get ⟨j, hj⟩ ∉ ["A", "B", "A"].drop (j + 1) →
        docGet doc (["A", "B", "A"].get ⟨i, hi⟩) = some (["x", "y", "z"].get ⟨j, hj⟩)) ∧
      (∀ s id, (fun _ _ => Except.ok "id" : Client) s.submitted doc = .ok id →
        phase2Step (fun _ _ => .ok "id") "bulkcsv" "processed_data" ["A", "B", "A"] s
            (.row ["x", "y", "z"]) =
          some { running := s.running
                 recordsProcessed := s.recordsProcessed + 1
                 successfulInserts := s.successfulInserts + 1
                 failedInserts := s.failedInserts
                 submitted := s.submitted ++ [doc] }) ∧
      (∀ ids : List Doc → Doc → String,
        phase2Step (fun earlier data => .ok (ids earlier data)) "bulkcsv" "processed_data"
            ["A", "A"] initState (.row ["x", "y"]) =
          some { running := true, recordsProcessed := 1, successfulInserts := 1,
                 failedInserts := 0, submitted := [[("A", "y")]] }) :=
  ⟨rfl,
   buildDoc_last_wins (fun _ _ => .ok "id") "bulkcsv" "processed_data" ["A", "B", "A"]
     ["x", "y", "z"] rfl⟩

end CsvLoader
